import Mathlib

/-!
Verification of the DNB scraper core (`linscr.py`): URL normalization
(`clean_url`), the dedup store (`processed_domains` / `add_domain` /
`is_domain_processed`), the MX-based classification gate
(`check_mx_records` / `is_microsoft_affiliated`), and the per-target
quota crawl loop of `DNBScraperSelenium.main`, shallowly embedded in Lean.
Python strings are modelled as Lean strings (lists of characters),
Python sets as duplicate-free insertion lists, page numbers as integers,
and the external world (scraped pages, DNS answers, file-write success)
as explicit environment functions.
-/

namespace Scraper

/-- `MAX_PAGES = 20` from `main`. -/
def MAX_PAGES : Int := 20

/-- `MAX_RETRIES = 3` from `main`. -/
def MAX_RETRIES : Nat := 3

/-- `self.microsoft_patterns` from `DNBScraperSelenium.__init__`. -/
def microsoft_patterns : List String :=
  ["outlook.com", "office365.com", "microsoft.com", "microsoftonline.com",
   "hotmail.com", "msn.com", "exchange.microsoft.com", "sharepoint.com",
   "azure.com", "onmicrosoft.com", "skype.com", "teams.microsoft.com",
   "mail.protection.outlook.com", "protection.outlook.com", "mail.microsoft.com",
   "outbound.protection.outlook.com", "cloudapp.net", "trafficmanager.net",
   "windows.net", "azureedge.net", "msecnd.net"]

/-- Python `url.lower()` on a character list (ASCII lowering). -/
def lowerL (l : List Char) : List Char := l.map Char.toLower

/-- Python `re.sub(r'^https?://', '', url)`: drop one leading scheme. -/
def stripSchemeL (l : List Char) : List Char :=
  if "https://".data.isPrefixOf l then l.drop 8
  else if "http://".data.isPrefixOf l then l.drop 7
  else l

/-- Python `re.sub(r'^www\.', '', url)`: drop one leading `www.`. -/
def stripWwwL (l : List Char) : List Char :=
  if "www.".data.isPrefixOf l then l.drop 4 else l

/-- Python `url.strip('/')`: drop all leading and trailing slashes. -/
def stripSlashL (l : List Char) : List Char :=
  (((l.dropWhile (· == '/')).reverse.dropWhile (· == '/')).reverse)

/-- `DNBScraperSelenium.clean_url` on character lists: lower, strip one
scheme prefix, strip one `www.` prefix, strip surrounding slashes. -/
def cleanUrlL (l : List Char) : List Char :=
  stripSlashL (stripWwwL (stripSchemeL (lowerL l)))

/-- `DNBScraperSelenium.clean_url`. -/
def clean_url (s : String) : String := ⟨cleanUrlL s.data⟩

/-- Outcome of `resolver.resolve(domain, 'MX')`: either a list of MX
exchange strings, or one of the failure modes caught in
`check_mx_records` (`NoAnswer`, `NXDOMAIN`, `Timeout`, any other
exception). -/
inductive DnsOutcome where
  | records (rs : List String)
  | noAnswer
  | nxdomain
  | timeout
  | otherError (msg : String)
  deriving DecidableEq, Repr

/-- Python `str(mx.exchange).rstrip('.')`: drop trailing dots. -/
def rstripDots (s : String) : String :=
  ⟨(s.data.reverse.dropWhile (· == '.')).reverse⟩

/-- One entry of `mx_strings`: `str(mx.exchange).rstrip('.').lower()`. -/
def normalizeMxRecord (s : String) : String := ⟨lowerL (rstripDots s).data⟩

/-- Python substring containment `needle in hay`. -/
def containsSub (needle hay : List Char) : Bool :=
  (List.range (hay.length + 1)).any fun i => needle.isPrefixOf (hay.drop i)

/-- The per-record test from the inner loop of `check_mx_records`:
`pattern in mx or mx.endswith('.' + pattern)`. -/
def recordMatchesPattern (mx pattern : String) : Bool :=
  containsSub pattern.data mx.data || ("." ++ pattern).data.isSuffixOf mx.data

/-- The inner loop of `check_mx_records` over `self.microsoft_patterns`
(the `break` makes it an any-pattern test for the record). -/
def mxRecordMatches (mx : String) : Bool :=
  microsoft_patterns.any fun pattern => recordMatchesPattern mx pattern

/-- `DNBScraperSelenium.check_mx_records`, with the DNS resolution
outcome passed in explicitly. Every caught exception branch returns
`false`; on an answer, `microsoft_found` is the list of matching
normalized records and the result is `len(microsoft_found) > 0`. -/
def check_mx_records (o : DnsOutcome) : Bool :=
  match o with
  | .records rs =>
      let mxStrings := rs.map normalizeMxRecord
      let microsoft_found := mxStrings.filter mxRecordMatches
      !microsoft_found.isEmpty
  | .noAnswer => false
  | .nxdomain => false
  | .timeout => false
  | .otherError _ => false

/-- `DNBScraperSelenium.is_microsoft_affiliated`: clean the website URL,
then check its MX records; `resolve` models the DNS resolver. -/
def is_microsoft_affiliated (resolve : String → DnsOutcome) (website : String) : Bool :=
  check_mx_records (resolve (clean_url website))

/-- The mutable per-run / per-target state of `DNBScraperSelenium.main`:
`ms_count`, `page_number`, `last_successful_page`, `retry_count`,
`self.failed_pages`, `self.processed_domains`, plus a ghost log
`classifiedLog` recording the canonical domain of every invocation of
`is_microsoft_affiliated` (most recent first). -/
structure CrawlState where
  msCount : Nat
  pageNumber : Int
  lastSuccessfulPage : Int
  retryCount : Nat
  failedPages : List Int
  processed : List String
  classifiedLog : List String
  deriving DecidableEq, Repr

/-- The external world of one run: the websites scraped from each page
(`scrape_company_websites`, which returns `[]` both for an empty page and
for a fetch error), the DNS resolver, and whether appending a given
domain to `microlinks.txt` succeeds (the `IOError` branch of
`add_domain`). -/
structure Env where
  pages : Int → List String
  resolve : String → DnsOutcome
  writeOk : String → Bool

/-- `DNBScraperSelenium.is_domain_processed`. -/
def is_domain_processed (s : CrawlState) (domain : String) : Bool :=
  s.processed.contains (clean_url domain)

/-- `DNBScraperSelenium.add_domain`: if the cleaned domain is new it is
added to `processed_domains`, then the append to `microlinks.txt` is
attempted; `true` is returned only when that write succeeds. -/
def add_domain (env : Env) (domain : String) (s : CrawlState) : Bool × CrawlState :=
  if s.processed.contains (clean_url domain) then (false, s)
  else if env.writeOk (clean_url domain) then
    (true, { s with processed := clean_url domain :: s.processed })
  else (false, { s with processed := clean_url domain :: s.processed })

/-- Python `self.failed_pages.add(p)` (set insertion). -/
def insertFailed (p : Int) (l : List Int) : List Int :=
  if l.contains p then l else p :: l

/-- Ghost bookkeeping: log the canonical domain handed to
`is_microsoft_affiliated`. -/
def noteClassified (w : String) (s : CrawlState) : CrawlState :=
  { s with classifiedLog := clean_url w :: s.classifiedLog }

/-- `if self.add_domain(website): ms_count += 1` -/
def countIfAdded (r : Bool × CrawlState) : CrawlState :=
  if r.1 then { r.2 with msCount := r.2.msCount + 1 } else r.2

/-- The `for website in websites:` loop of `main` (lines 331-339):
skip falsy or already-processed websites; otherwise classify (logged in
`classifiedLog`), on affiliation try `add_domain` and count a success,
and `break` as soon as `ms_count >= target_count`. -/
def processWebsites (env : Env) (target : Nat) : List String → CrawlState → CrawlState
  | [], s => s
  | w :: ws, s =>
    if w ≠ "" ∧ is_domain_processed s w = false then
      if is_microsoft_affiliated env.resolve w then
        if target ≤ (countIfAdded (add_domain env w (noteClassified w s))).msCount then
          countIfAdded (add_domain env w (noteClassified w s))
        else
          processWebsites env target ws (countIfAdded (add_domain env w (noteClassified w s)))
      else
        if target ≤ (noteClassified w s).msCount then noteClassified w s
        else processWebsites env target ws (noteClassified w s)
    else processWebsites env target ws s

/-- The tail of the loop body of `main`:
`if ms_count >= target_count: break` then `page_number += 1`. -/
def advanceUnlessQuota (target : Nat) (s : CrawlState) : CrawlState :=
  if target ≤ s.msCount then s else { s with pageNumber := s.pageNumber + 1 }

/-- One iteration of the `while ms_count < target_count and page_number
<= MAX_PAGES:` loop body of `main` (to be run only when that guard
holds). -/
def stepPage (env : Env) (target : Nat) (s : CrawlState) : CrawlState :=
  if (env.pages s.pageNumber).isEmpty then
    advanceUnlessQuota target { s with failedPages := insertFailed s.pageNumber s.failedPages }
  else if s.lastSuccessfulPage + 1 < s.pageNumber ∧ s.retryCount < MAX_RETRIES then
    { s with pageNumber := s.lastSuccessfulPage + 1, retryCount := s.retryCount + 1 }
  else
    advanceUnlessQuota target
      (processWebsites env target (env.pages s.pageNumber)
        { s with lastSuccessfulPage := s.pageNumber, retryCount := 0 })

/-- The fuelled `while` loop of `main` for one target: iterate
`stepPage` while `ms_count < target_count` and
`page_number <= MAX_PAGES`. -/
def crawlLoop (env : Env) (target : Nat) : Nat → CrawlState → CrawlState
  | 0, s => s
  | fuel + 1, s =>
    if s.msCount < target ∧ s.pageNumber ≤ MAX_PAGES then
      crawlLoop env target fuel (stepPage env target s)
    else s

/-- The fresh per-target state set up at the top of the
`for base_url, count, start_page in urls_with_counts:` loop:
`ms_count = 0`, `page_number = start_page`,
`last_successful_page = page_number - 1`, `retry_count = 0`, with
`failed_pages` empty (it is cleared after each target) and the shared
`processed_domains` carried in. -/
def initState (startPage : Int) (pd : List String) : CrawlState :=
  { msCount := 0, pageNumber := startPage, lastSuccessfulPage := startPage - 1,
    retryCount := 0, failedPages := [], processed := pd, classifiedLog := [] }

/-- One egress profile's pass over one target: the crawl loop run from
the fresh per-target state, sharing the processed-domain set. -/
def runTarget (env : Env) (quota : Nat) (startPage : Int) (fuel : Nat)
    (pd : List String) : CrawlState :=
  crawlLoop env quota fuel (initState startPage pd)

/-- The `for config_file in self.WIREGUARD_CONFIG_FILES:` loop of `main`
restricted to one target: each egress profile reruns the target from the
fresh per-target state; only `processed_domains` is threaded from one
profile to the next. Returns the final state of each profile's pass. -/
def runProfiles (env : Env) (quota : Nat) (startPage : Int) (fuel : Nat) :
    Nat → List String → List CrawlState
  | 0, _ => []
  | n + 1, pd =>
    let st := runTarget env quota startPage fuel pd
    st :: runProfiles env quota startPage fuel n st.processed

/-- A sequence of `n` consecutive `add_domain` calls on the same domain,
returning the list of results in order. -/
def recordSeq (env : Env) (domain : String) : Nat → CrawlState → List Bool
  | 0, _ => []
  | n + 1, s =>
    (add_domain env domain s).1 :: recordSeq env domain n (add_domain env domain s).2

/-- ASCII lowering of a whole string (Python `s.lower()`). -/
def lowerStr (s : String) : String := ⟨lowerL s.data⟩

/-- Modelled from the spec: the match predicate as §4.2 words it — "a
match is either an exact pattern match or the record ends with
`.`+pattern", case-insensitive. Used only to compare against the code's
`recordMatchesPattern` (refinement claim C4). -/
def specMatchPred (mx pattern : String) : Bool :=
  lowerStr mx == lowerStr pattern ||
  ("." ++ lowerStr pattern).data.isSuffixOf (lowerStr mx).data

/-! ### Concrete environments used in counterexamples and witnesses -/

/-- Pages 1 and 2 both list `bar.com`, whose MX host matches no
Microsoft pattern. -/
def envBarTwice : Env :=
  { pages := fun p => if p ≤ 2 then ["bar.com"] else [],
    resolve := fun _ => .records ["mail.bar.com"],
    writeOk := fun _ => true }

/-- Page 1 lists `a.com`, a Microsoft-affiliated domain; every other
page is empty. -/
def envOneHit : Env :=
  { pages := fun p => if p == 1 then ["a.com"] else [],
    resolve := fun d => if d == "a.com" then .records ["mail.protection.outlook.com"] else .noAnswer,
    writeOk := fun _ => true }

/-- Page 1 is empty, page 2 has data. -/
def envEmptyThenData : Env :=
  { pages := fun p => if p == 2 then ["b.com"] else [],
    resolve := fun _ => .noAnswer,
    writeOk := fun _ => true }

/-- No scraped pages; all file writes succeed. -/
def envAllWrites : Env :=
  { pages := fun _ => [], resolve := fun _ => .noAnswer, writeOk := fun _ => true }

/-- No scraped pages; every file write fails (the `IOError` branch of
`add_domain`). -/
def envNoWrites : Env :=
  { pages := fun _ => [], resolve := fun _ => .noAnswer, writeOk := fun _ => false }

/-- Page 5 has data, all others are empty. -/
def envGap : Env :=
  { pages := fun p => if p == 5 then ["b.com"] else [],
    resolve := fun _ => .noAnswer,
    writeOk := fun _ => true }

/-- A state sitting at page 5 whose last successful page was 1:
a three-page gap. -/
def sGap : CrawlState :=
  { msCount := 0, pageNumber := 5, lastSuccessfulPage := 1, retryCount := 0,
    failedPages := [], processed := [], classifiedLog := [] }

/-- A DNS resolver that always times out. -/
def resolveTimeout : String → DnsOutcome := fun _ => .timeout

/-! ### Helper lemmas -/

theorem contains_cons_of_contains (l : List String) (c x : String)
    (h : l.contains x = true) : (c :: l).contains x = true := by
  rw [List.contains_cons, h, Bool.or_true]

@[simp] theorem noteClassified_msCount (w : String) (s : CrawlState) :
    (noteClassified w s).msCount = s.msCount := rfl

@[simp] theorem noteClassified_pageNumber (w : String) (s : CrawlState) :
    (noteClassified w s).pageNumber = s.pageNumber := rfl

@[simp] theorem noteClassified_lastSuccessfulPage (w : String) (s : CrawlState) :
    (noteClassified w s).lastSuccessfulPage = s.lastSuccessfulPage := rfl

@[simp] theorem noteClassified_retryCount (w : String) (s : CrawlState) :
    (noteClassified w s).retryCount = s.retryCount := rfl

@[simp] theorem noteClassified_failedPages (w : String) (s : CrawlState) :
    (noteClassified w s).failedPages = s.failedPages := rfl

@[simp] theorem noteClassified_processed (w : String) (s : CrawlState) :
    (noteClassified w s).processed = s.processed := rfl

@[simp] theorem add_domain_msCount (env : Env) (d : String) (s : CrawlState) :
    (add_domain env d s).2.msCount = s.msCount := by
  unfold add_domain
  split
  · rfl
  · split <;> rfl

@[simp] theorem add_domain_pageNumber (env : Env) (d : String) (s : CrawlState) :
    (add_domain env d s).2.pageNumber = s.pageNumber := by
  unfold add_domain
  split
  · rfl
  · split <;> rfl

@[simp] theorem add_domain_lastSuccessfulPage (env : Env) (d : String) (s : CrawlState) :
    (add_domain env d s).2.lastSuccessfulPage = s.lastSuccessfulPage := by
  unfold add_domain
  split
  · rfl
  · split <;> rfl

@[simp] theorem add_domain_retryCount (env : Env) (d : String) (s : CrawlState) :
    (add_domain env d s).2.retryCount = s.retryCount := by
  unfold add_domain
  split
  · rfl
  · split <;> rfl

@[simp] theorem add_domain_failedPages (env : Env) (d : String) (s : CrawlState) :
    (add_domain env d s).2.failedPages = s.failedPages := by
  unfold add_domain
  split
  · rfl
  · split <;> rfl

@[simp] theorem add_domain_classifiedLog (env : Env) (d : String) (s : CrawlState) :
    (add_domain env d s).2.classifiedLog = s.classifiedLog := by
  unfold add_domain
  split
  · rfl
  · split <;> rfl

/-- After any `add_domain d` call, the cleaned domain is in
`processed_domains` (it is inserted before the fallible file write). -/
theorem add_domain_contains_self (env : Env) (d : String) (s : CrawlState) :
    (add_domain env d s).2.processed.contains (clean_url d) = true := by
  unfold add_domain
  split
  · next h => exact h
  · split <;> simp [List.contains_cons]

theorem add_domain_processed_mono (env : Env) (d : String) (s : CrawlState)
    (x : String) (h : s.processed.contains x = true) :
    (add_domain env d s).2.processed.contains x = true := by
  unfold add_domain
  split
  · exact h
  · split <;> exact contains_cons_of_contains _ _ _ h

/-- `add_domain` on an already-recorded domain returns `False` and
leaves the state unchanged. -/
theorem add_domain_of_contains (env : Env) (d : String) (s : CrawlState)
    (h : s.processed.contains (clean_url d) = true) :
    add_domain env d s = (false, s) := by
  unfold add_domain
  rw [h]
  simp

/-- `add_domain` on a new domain with a succeeding file write returns
`True` and inserts the cleaned domain. -/
theorem add_domain_of_new (env : Env) (d : String) (s : CrawlState)
    (h : s.processed.contains (clean_url d) = false)
    (hw : env.writeOk (clean_url d) = true) :
    add_domain env d s = (true, { s with processed := clean_url d :: s.processed }) := by
  unfold add_domain
  rw [h, hw]
  simp

@[simp] theorem advanceUnlessQuota_msCount (target : Nat) (s : CrawlState) :
    (advanceUnlessQuota target s).msCount = s.msCount := by
  unfold advanceUnlessQuota
  split <;> rfl

@[simp] theorem advanceUnlessQuota_lastSuccessfulPage (target : Nat) (s : CrawlState) :
    (advanceUnlessQuota target s).lastSuccessfulPage = s.lastSuccessfulPage := by
  unfold advanceUnlessQuota
  split <;> rfl

@[simp] theorem advanceUnlessQuota_retryCount (target : Nat) (s : CrawlState) :
    (advanceUnlessQuota target s).retryCount = s.retryCount := by
  unfold advanceUnlessQuota
  split <;> rfl

@[simp] theorem advanceUnlessQuota_processed (target : Nat) (s : CrawlState) :
    (advanceUnlessQuota target s).processed = s.processed := by
  unfold advanceUnlessQuota
  split <;> rfl

@[simp] theorem countIfAdded_pageNumber (r : Bool × CrawlState) :
    (countIfAdded r).pageNumber = r.2.pageNumber := by
  unfold countIfAdded
  split <;> rfl

@[simp] theorem countIfAdded_lastSuccessfulPage (r : Bool × CrawlState) :
    (countIfAdded r).lastSuccessfulPage = r.2.lastSuccessfulPage := by
  unfold countIfAdded
  split <;> rfl

@[simp] theorem countIfAdded_retryCount (r : Bool × CrawlState) :
    (countIfAdded r).retryCount = r.2.retryCount := by
  unfold countIfAdded
  split <;> rfl

@[simp] theorem countIfAdded_failedPages (r : Bool × CrawlState) :
    (countIfAdded r).failedPages = r.2.failedPages := by
  unfold countIfAdded
  split <;> rfl

@[simp] theorem countIfAdded_processed (r : Bool × CrawlState) :
    (countIfAdded r).processed = r.2.processed := by
  unfold countIfAdded
  split <;> rfl

theorem countIfAdded_msCount_bounds (r : Bool × CrawlState) :
    r.2.msCount ≤ (countIfAdded r).msCount ∧
    (countIfAdded r).msCount ≤ r.2.msCount + 1 := by
  unfold countIfAdded
  split
  · exact ⟨Nat.le_succ _, Nat.le_refl _⟩
  · exact ⟨Nat.le_refl _, Nat.le_succ _⟩

theorem processWebsites_pageNumber (env : Env) (target : Nat) (ws : List String) :
    ∀ s : CrawlState, (processWebsites env target ws s).pageNumber = s.pageNumber := by
  induction ws with
  | nil => intro s; rfl
  | cons w ws ih =>
    intro s
    unfold processWebsites
    split
    · split
      · split
        · simp
        · simp [ih]
      · split
        · simp
        · simp [ih]
    · exact ih s

theorem processWebsites_lastSuccessfulPage (env : Env) (target : Nat) (ws : List String) :
    ∀ s : CrawlState,
      (processWebsites env target ws s).lastSuccessfulPage = s.lastSuccessfulPage := by
  induction ws with
  | nil => intro s; rfl
  | cons w ws ih =>
    intro s
    unfold processWebsites
    split
    · split
      · split
        · simp
        · simp [ih]
      · split
        · simp
        · simp [ih]
    · exact ih s

theorem processWebsites_retryCount (env : Env) (target : Nat) (ws : List String) :
    ∀ s : CrawlState, (processWebsites env target ws s).retryCount = s.retryCount := by
  induction ws with
  | nil => intro s; rfl
  | cons w ws ih =>
    intro s
    unfold processWebsites
    split
    · split
      · split
        · simp
        · simp [ih]
      · split
        · simp
        · simp [ih]
    · exact ih s

theorem processWebsites_failedPages (env : Env) (target : Nat) (ws : List String) :
    ∀ s : CrawlState, (processWebsites env target ws s).failedPages = s.failedPages := by
  induction ws with
  | nil => intro s; rfl
  | cons w ws ih =>
    intro s
    unfold processWebsites
    split
    · split
      · split
        · simp
        · simp [ih]
      · split
        · simp
        · simp [ih]
    · exact ih s

theorem processWebsites_msCount_mono (env : Env) (target : Nat) (ws : List String) :
    ∀ s : CrawlState, s.msCount ≤ (processWebsites env target ws s).msCount := by
  induction ws with
  | nil => intro s; exact Nat.le_refl _
  | cons w ws ih =>
    intro s
    unfold processWebsites
    split
    · split
      · have hb := countIfAdded_msCount_bounds (add_domain env w (noteClassified w s))
        have ha : (add_domain env w (noteClassified w s)).2.msCount = s.msCount := by simp
        split
        · omega
        · have := ih (countIfAdded (add_domain env w (noteClassified w s)))
          omega
      · split
        · simp
        · have := ih (noteClassified w s)
          simpa using this
    · exact ih s

theorem processWebsites_msCount_le (env : Env) (target : Nat) (ws : List String) :
    ∀ s : CrawlState, s.msCount < target →
      (processWebsites env target ws s).msCount ≤ target := by
  induction ws with
  | nil => intro s h; exact Nat.le_of_lt h
  | cons w ws ih =>
    intro s h
    unfold processWebsites
    split
    · split
      · have hb := countIfAdded_msCount_bounds (add_domain env w (noteClassified w s))
        have ha : (add_domain env w (noteClassified w s)).2.msCount = s.msCount := by simp
        split
        · omega
        · next hnot =>
            exact ih (countIfAdded (add_domain env w (noteClassified w s))) (by omega)
      · split
        · simpa using Nat.le_of_lt h
        · exact ih (noteClassified w s) (by simpa using h)
    · exact ih s h

theorem processWebsites_processed_mono (env : Env) (target : Nat) (ws : List String) :
    ∀ (s : CrawlState) (x : String), s.processed.contains x = true →
      (processWebsites env target ws s).processed.contains x = true := by
  induction ws with
  | nil => intro s x h; exact h
  | cons w ws ih =>
    intro s x h
    have hadd : (add_domain env w (noteClassified w s)).2.processed.contains x = true :=
      add_domain_processed_mono env w (noteClassified w s) x (by simpa using h)
    unfold processWebsites
    split
    · split
      · split
        · simpa using hadd
        · exact ih (countIfAdded (add_domain env w (noteClassified w s))) x (by simpa using hadd)
      · split
        · simpa using h
        · exact ih (noteClassified w s) x (by simpa using h)
    · exact ih s x h

/-- A website whose cleaned form is already in `processed_domains` is
skipped entirely: no classification, no state change. -/
theorem processWebsites_skip (env : Env) (target : Nat) (w : String) (ws : List String)
    (s : CrawlState) (h : is_domain_processed s w = true) :
    processWebsites env target (w :: ws) s = processWebsites env target ws s := by
  conv_lhs => unfold processWebsites
  simp [h]

theorem stepPage_msCount_mono (env : Env) (target : Nat) (s : CrawlState) :
    s.msCount ≤ (stepPage env target s).msCount := by
  unfold stepPage
  split
  · simp
  · split
    · exact Nat.le_refl _
    · have := processWebsites_msCount_mono env target (env.pages s.pageNumber)
        { s with lastSuccessfulPage := s.pageNumber, retryCount := 0 }
      simpa using this

theorem stepPage_msCount_le (env : Env) (target : Nat) (s : CrawlState)
    (h : s.msCount < target) : (stepPage env target s).msCount ≤ target := by
  unfold stepPage
  split
  · simpa using Nat.le_of_lt h
  · split
    · exact Nat.le_of_lt h
    · have := processWebsites_msCount_le env target (env.pages s.pageNumber)
        { s with lastSuccessfulPage := s.pageNumber, retryCount := 0 } (by simpa using h)
      simpa using this

theorem stepPage_processed_mono (env : Env) (target : Nat) (s : CrawlState)
    (x : String) (h : s.processed.contains x = true) :
    (stepPage env target s).processed.contains x = true := by
  unfold stepPage
  split
  · simpa using h
  · split
    · exact h
    · have := processWebsites_processed_mono env target (env.pages s.pageNumber)
        { s with lastSuccessfulPage := s.pageNumber, retryCount := 0 } x (by simpa using h)
      simpa using this

theorem crawlLoop_msCount_mono (env : Env) (target : Nat) (fuel : Nat) :
    ∀ s : CrawlState, s.msCount ≤ (crawlLoop env target fuel s).msCount := by
  induction fuel with
  | zero => intro s; exact Nat.le_refl _
  | succ n ih =>
    intro s
    unfold crawlLoop
    split
    · exact Nat.le_trans (stepPage_msCount_mono env target s) (ih (stepPage env target s))
    · exact Nat.le_refl _

theorem crawlLoop_msCount_le (env : Env) (target : Nat) (fuel : Nat) :
    ∀ s : CrawlState, s.msCount ≤ target →
      (crawlLoop env target fuel s).msCount ≤ target := by
  induction fuel with
  | zero => intro s h; exact h
  | succ n ih =>
    intro s h
    unfold crawlLoop
    split
    · next hg => exact ih (stepPage env target s) (stepPage_msCount_le env target s hg.1)
    · exact h

theorem crawlLoop_processed_mono (env : Env) (target : Nat) (fuel : Nat) :
    ∀ (s : CrawlState) (x : String), s.processed.contains x = true →
      (crawlLoop env target fuel s).processed.contains x = true := by
  induction fuel with
  | zero => intro s x h; exact h
  | succ n ih =>
    intro s x h
    unfold crawlLoop
    split
    · exact ih (stepPage env target s) x (stepPage_processed_mono env target s x h)
    · exact h

/-- `add_domain` on a new domain whose file write fails returns `False`
but still inserts the cleaned domain into `processed_domains`. -/
theorem add_domain_of_new_io (env : Env) (d : String) (s : CrawlState)
    (h : s.processed.contains (clean_url d) = false)
    (hw : env.writeOk (clean_url d) = false) :
    add_domain env d s = (false, { s with processed := clean_url d :: s.processed }) := by
  unfold add_domain
  rw [h, hw]
  simp

/-- Once the cleaned domain is in the store, every later `add_domain`
call returns `False` and changes nothing. -/
theorem recordSeq_of_contains (env : Env) (d : String) :
    ∀ (n : Nat) (s : CrawlState), s.processed.contains (clean_url d) = true →
      recordSeq env d n s = List.replicate n false := by
  intro n
  induction n with
  | zero => intro s _; rfl
  | succ m ih =>
    intro s h
    unfold recordSeq
    rw [add_domain_of_contains env d s h]
    simp [List.replicate_succ, ih s h]

/-- A step on an empty page (quota not yet met) records the page in
`failed_pages` and advances by one; nothing else changes. -/
theorem stepPage_empty_eq (env : Env) (Q : Nat) (s : CrawlState)
    (hq : s.msCount < Q) (he : (env.pages s.pageNumber).isEmpty = true) :
    stepPage env Q s =
      { s with failedPages := insertFailed s.pageNumber s.failedPages,
               pageNumber := s.pageNumber + 1 } := by
  unfold stepPage advanceUnlessQuota
  split
  · split
    · next hle => exact absurd (hle : Q ≤ s.msCount) (Nat.not_le.mpr hq)
    · rfl
  · next hne => exact absurd he hne

/-- A step on a page with data, with a gap behind it and retry budget
remaining, backtracks to `last_successful_page + 1` and increments the
retry counter. -/
theorem stepPage_retry_eq (env : Env) (Q : Nat) (s : CrawlState)
    (hne : (env.pages s.pageNumber).isEmpty = false)
    (hgap : s.lastSuccessfulPage + 1 < s.pageNumber)
    (hr : s.retryCount < MAX_RETRIES) :
    stepPage env Q s =
      { s with pageNumber := s.lastSuccessfulPage + 1,
               retryCount := s.retryCount + 1 } := by
  unfold stepPage
  split
  · next hemp =>
      rw [hne] at hemp
      exact Bool.noConfusion hemp
  · split
    · rfl
    · next hcond => exact absurd ⟨hgap, hr⟩ hcond

/-! ### Normalization (`clean_url`) lemmas -/

/-- ASCII lowering is idempotent character-wise. -/
theorem toLower_toLower (c : Char) : c.toLower.toLower = c.toLower := by
  unfold Char.toLower
  by_cases h : c.toNat ≥ 65 ∧ c.toNat ≤ 90
  · simp only [h, if_true]
    have key : ∀ k : Nat, 97 ≤ k → k ≤ 122 →
        ¬((Char.ofNat k).toNat ≥ 65 ∧ (Char.ofNat k).toNat ≤ 90) := by
      intro k hk1 hk2
      interval_cases k <;> decide
    have hk := key (c.toNat + 32) (by omega) (by omega)
    simp [hk]
  · simp [h]

theorem map_eq_self_of_fixed {f : Char → Char} :
    ∀ {m : List Char}, (∀ c ∈ m, f c = c) → m.map f = m := by
  intro m
  induction m with
  | nil => intro _; rfl
  | cons a t ih =>
    intro h
    simp only [List.map_cons, h a (by simp)]
    rw [ih fun c hc => h c (by simp [hc])]

theorem stripSchemeL_subset (m : List Char) : stripSchemeL m ⊆ m := by
  unfold stripSchemeL
  split
  · exact List.drop_subset _ _
  · split
    · exact List.drop_subset _ _
    · exact fun x hx => hx

theorem stripWwwL_subset (m : List Char) : stripWwwL m ⊆ m := by
  unfold stripWwwL
  split
  · exact List.drop_subset _ _
  · exact fun x hx => hx

theorem stripSlashL_subset (m : List Char) : stripSlashL m ⊆ m := by
  intro x hx
  unfold stripSlashL at hx
  rw [List.mem_reverse] at hx
  have hx2 := (List.dropWhile_sublist _).subset hx
  rw [List.mem_reverse] at hx2
  exact (List.dropWhile_sublist _).subset hx2

theorem cleanUrlL_subset_lowerL (l : List Char) : cleanUrlL l ⊆ lowerL l :=
  fun _ hx => stripSchemeL_subset _ (stripWwwL_subset _ (stripSlashL_subset _ hx))

/-- The output of `clean_url` is already fully lowercased. -/
theorem lowerL_cleanUrlL (l : List Char) : lowerL (cleanUrlL l) = cleanUrlL l := by
  apply map_eq_self_of_fixed
  intro c hc
  have hmem : c ∈ lowerL l := cleanUrlL_subset_lowerL l hc
  obtain ⟨c0, _, rfl⟩ := List.mem_map.mp hmem
  exact toLower_toLower c0

theorem stripSchemeL_eq_self (m : List Char)
    (h1 : "https://".data.isPrefixOf m = false)
    (h2 : "http://".data.isPrefixOf m = false) : stripSchemeL m = m := by
  unfold stripSchemeL
  rw [h1, h2]
  simp

theorem stripWwwL_eq_self (m : List Char)
    (h3 : "www.".data.isPrefixOf m = false) : stripWwwL m = m := by
  unfold stripWwwL
  rw [h3]
  simp

theorem dropWhile_dropWhile_eq (p : Char → Bool) (l : List Char) :
    List.dropWhile p (List.dropWhile p l) = List.dropWhile p l := by
  induction l with
  | nil => rfl
  | cons a t ih =>
    by_cases h : p a
    · simpa [List.dropWhile_cons, h] using ih
    · simp [List.dropWhile_cons, h]

theorem dropWhile_cons_self {p : Char → Bool} {x : Char} {xs : List Char}
    (h : List.dropWhile p (x :: xs) = x :: xs) : p x = false := by
  by_cases hp : p x = true
  · rw [List.dropWhile_cons, if_pos hp] at h
    have h1 := (List.dropWhile_sublist (l := xs) p).length_le
    have h2 := congrArg List.length h
    simp at h2
    omega
  · cases hpx : p x with
    | false => rfl
    | true => exact absurd hpx hp

theorem dropWhile_eq_self_of_prefix {p : Char → Bool} :
    ∀ {b a : List Char}, b <+: a → List.dropWhile p a = a →
      List.dropWhile p b = b := by
  intro b a hba ha
  cases b with
  | nil => rfl
  | cons x xs =>
    obtain ⟨t, ht⟩ := hba
    rw [← ht] at ha
    have hx : p x = false := dropWhile_cons_self ha
    rw [List.dropWhile_cons, if_neg (by simp [hx])]

/-- Stripping surrounding slashes is idempotent. -/
theorem stripSlashL_idem (y : List Char) :
    stripSlashL (stripSlashL y) = stripSlashL y := by
  unfold stripSlashL
  have ha : List.dropWhile (· == '/') (List.dropWhile (· == '/') y) =
      List.dropWhile (· == '/') y := dropWhile_dropWhile_eq _ y
  have hprefix :
      (((y.dropWhile (· == '/')).reverse.dropWhile (· == '/')).reverse) <+:
        (y.dropWhile (· == '/')) := by
    rw [← List.reverse_suffix]
    rw [List.reverse_reverse]
    exact List.dropWhile_suffix _
  have hB := dropWhile_eq_self_of_prefix hprefix ha
  rw [hB, List.reverse_reverse, dropWhile_dropWhile_eq]

/-- `clean_url` (list level) is idempotent on every input whose cleaned
form does not itself begin with a scheme or a `www.` prefix. -/
theorem cleanUrlL_idem (l : List Char)
    (h1 : "https://".data.isPrefixOf (cleanUrlL l) = false)
    (h2 : "http://".data.isPrefixOf (cleanUrlL l) = false)
    (h3 : "www.".data.isPrefixOf (cleanUrlL l) = false) :
    cleanUrlL (cleanUrlL l) = cleanUrlL l := by
  show stripSlashL (stripWwwL (stripSchemeL (lowerL (cleanUrlL l)))) = cleanUrlL l
  rw [lowerL_cleanUrlL, stripSchemeL_eq_self _ h1 h2, stripWwwL_eq_self _ h3]
  show stripSlashL (stripSlashL (stripWwwL (stripSchemeL (lowerL l)))) =
    stripSlashL (stripWwwL (stripSchemeL (lowerL l)))
  exact stripSlashL_idem _

/-! ### Claim theorems -/

/-- C1 counterexample: with `bar.com` appearing on pages 1 and 2 and its
MX host matching no Microsoft pattern, the run classifies the same
canonical domain twice — `add_domain` is only reached on an Affiliated
verdict, so a NotAffiliated domain is never marked processed and is
re-submitted to classification on its next encounter. -/
theorem classify_called_twice_on_notaffiliated :
    (crawlLoop envBarTwice 1 2 (initState 1 [])).classifiedLog.count "bar.com" = 2 := by
  decide

/-- C1 (amended): a canonical domain is protected from re-classification
exactly when it has been recorded in `processed_domains` (which `main`
does only after an Affiliated verdict): an encounter of a recorded
domain is skipped entirely — no classification call and no state change,
in particular `ms_count` is unaffected — and the recorded set only grows
over the rest of the run. -/
theorem processed_skip_and_dedup_monotone (env : Env) (Q : Nat) :
    (∀ (w : String) (ws : List String) (s : CrawlState),
        is_domain_processed s w = true →
        processWebsites env Q (w :: ws) s = processWebsites env Q ws s) ∧
    (∀ (fuel : Nat) (s : CrawlState) (d : String),
        s.processed.contains d = true →
        (crawlLoop env Q fuel s).processed.contains d = true) :=
  ⟨fun w ws s h => processWebsites_skip env Q w ws s h,
   fun fuel s d h => crawlLoop_processed_mono env Q fuel s d h⟩

/-- Witness for C1: a concrete skipped re-encounter of `bar.com`. -/
theorem processed_skip_witness :
    is_domain_processed (initState 1 ["bar.com"]) "bar.com" = true ∧
    processWebsites envBarTwice 1 ["bar.com"] (initState 1 ["bar.com"]) =
      processWebsites envBarTwice 1 [] (initState 1 ["bar.com"]) :=
  ⟨by decide,
   (processed_skip_and_dedup_monotone envBarTwice 1).1 "bar.com" [] (initState 1 ["bar.com"])
     (by decide)⟩

/-- C2 counterexample: after the first egress profile finishes the target
with 1 accepted result at page 21, the second profile's pass over the same
target starts from the fresh state (`ms_count = 0`, `page_number =
start_page`) rather than continuing from (1, 21); its final accepted
count is 0 because the only affiliated domain is already deduplicated. -/
theorem profile_switch_resets_crawl_state :
    (runTarget envOneHit 2 1 25 []).msCount = 1 ∧
    (runTarget envOneHit 2 1 25 []).pageNumber = 21 ∧
    (runProfiles envOneHit 2 1 25 2 []).map (fun st => st.msCount) = [1, 0] ∧
    (initState 1 (runTarget envOneHit 2 1 25 []).processed).msCount = 0 ∧
    (initState 1 (runTarget envOneHit 2 1 25 []).processed).pageNumber = 1 := by
  decide

/-- C2 (amended): a switch of egress profile preserves only the dedup
store: each profile reruns the target from a fresh `CrawlState`
(`ms_count = 0`, `page_number = start_page`, `last_successful_page =
start_page - 1`, zero retries, empty `failed_pages`) with the
processed-domain set carried over, and domains already in that set stay
in it through the whole pass. -/
theorem profile_pass_fresh_state_dedup_persists (env : Env) (Q : Nat) (sp : Int)
    (fuel : Nat) (pd : List String) :
    runTarget env Q sp fuel pd =
      crawlLoop env Q fuel
        { msCount := 0, pageNumber := sp, lastSuccessfulPage := sp - 1, retryCount := 0,
          failedPages := [], processed := pd, classifiedLog := [] } ∧
    (∀ d : String, pd.contains d = true →
      (runTarget env Q sp fuel pd).processed.contains d = true) :=
  ⟨rfl, fun d h => crawlLoop_processed_mono env Q fuel _ d h⟩

/-- Witness for C2: `a.com` persists through a later profile's pass. -/
theorem profile_pass_witness :
    (["a.com"] : List String).contains "a.com" = true ∧
    (runTarget envOneHit 2 1 25 ["a.com"]).processed.contains "a.com" = true :=
  ⟨by decide,
   (profile_pass_fresh_state_dedup_persists envOneHit 2 1 25 ["a.com"]).2 "a.com" (by decide)⟩

/-- C3 counterexample: page 1 is empty, page 2 has data. The empty page
is recorded in `failed_pages`, but because `last_successful_page` was not
advanced past it, the data on page 2 triggers the gap-retry: the
controller resets `page_number` back to 1 and spends a retry on account
of the empty page. -/
theorem empty_page_triggers_gap_retry :
    (crawlLoop envEmptyThenData 1 2 (initState 1 [])).failedPages = [1] ∧
    (crawlLoop envEmptyThenData 1 2 (initState 1 [])).pageNumber = 1 ∧
    (crawlLoop envEmptyThenData 1 2 (initState 1 [])).retryCount = 1 := by
  decide

/-- C3 (amended): an empty page is recorded into `failed_pages` and the
controller advances to the next page — but the empty page IS treated as
a gap: it does not become a successful page, so if the next page yields
entity links (and retry budget remains) the controller resets
`page_number` back to `last_successful_page + 1`, re-visiting the empty
page. -/
theorem empty_page_records_and_advances (env : Env) (Q : Nat) (s : CrawlState)
    (hq : s.msCount < Q) (he : (env.pages s.pageNumber).isEmpty = true) :
    stepPage env Q s =
      { s with failedPages := insertFailed s.pageNumber s.failedPages,
               pageNumber := s.pageNumber + 1 } ∧
    ((env.pages (s.pageNumber + 1)).isEmpty = false →
      s.lastSuccessfulPage + 1 < s.pageNumber + 1 → s.retryCount < MAX_RETRIES →
      stepPage env Q (stepPage env Q s) =
        { s with failedPages := insertFailed s.pageNumber s.failedPages,
                 pageNumber := s.lastSuccessfulPage + 1,
                 retryCount := s.retryCount + 1 }) := by
  have h1 := stepPage_empty_eq env Q s hq he
  refine ⟨h1, fun hne hgap hr => ?_⟩
  rw [h1]
  exact stepPage_retry_eq env Q
    { s with failedPages := insertFailed s.pageNumber s.failedPages,
             pageNumber := s.pageNumber + 1 }
    hne hgap hr

/-- Witness for C3: a concrete empty page recorded and revisited. -/
theorem empty_page_records_witness :
    ((initState 1 []).msCount < 1 ∧
      (envEmptyThenData.pages (initState 1 []).pageNumber).isEmpty = true) ∧
    stepPage envEmptyThenData 1 (initState 1 []) =
      { initState 1 [] with failedPages := [1], pageNumber := 2 } ∧
    stepPage envEmptyThenData 1 (stepPage envEmptyThenData 1 (initState 1 [])) =
      { initState 1 [] with failedPages := [1], pageNumber := 1, retryCount := 1 } := by
  refine ⟨⟨by decide, by decide⟩, ?_, ?_⟩
  · exact (empty_page_records_and_advances envEmptyThenData 1 (initState 1 [])
      (by decide) (by decide)).1
  · exact (empty_page_records_and_advances envEmptyThenData 1 (initState 1 [])
      (by decide) (by decide)).2 (by decide) (by decide) (by decide)

/-- C4 counterexample: the record `outlook.com.evil.com` contains the
pattern `outlook.com` as an interior substring, so the code counts it as
a match, yet it is neither equal to any pattern nor ends with `.`+pattern
— refuting the exact-or-dot-suffix-only reading. -/
theorem interior_substring_counts_as_match :
    mxRecordMatches "outlook.com.evil.com" = true ∧
    microsoft_patterns.all (fun p => !specMatchPred "outlook.com.evil.com" p) = true := by
  decide

/-- C4 (amended): a normalized MX record matches iff some pattern occurs
in it as a substring or it ends with `.`+pattern; every exact pattern
match is still counted (a string contains itself), but interior
substring occurrences count too. -/
theorem mx_match_characterization :
    (∀ mx : String, mxRecordMatches mx = true ↔
      ∃ p ∈ microsoft_patterns, containsSub p.data mx.data = true ∨
        ("." ++ p).data.isSuffixOf mx.data = true) ∧
    (∀ p ∈ microsoft_patterns, recordMatchesPattern p p = true) := by
  constructor
  · intro mx
    simp [mxRecordMatches, recordMatchesPattern, List.any_eq_true, Bool.or_eq_true]
  · decide

/-- Witness for C4: the exact pattern `outlook.com` matches itself. -/
theorem mx_match_witness :
    "outlook.com" ∈ microsoft_patterns ∧
    recordMatchesPattern "outlook.com" "outlook.com" = true :=
  ⟨by decide, mx_match_characterization.2 "outlook.com" (by decide)⟩

/-- C5 counterexample: the empty URL normalizes to the empty string and
there is no invalid sentinel: on a fresh store, `record("")` returns
`True`, the empty string is added to the store, and `seen("")` reports
`True` afterwards — refuting "never recorded, always seen=false /
record=false". -/
theorem empty_url_recorded_not_sentinel :
    clean_url "" = "" ∧
    (add_domain envAllWrites "" (initState 1 [])).1 = true ∧
    is_domain_processed (add_domain envAllWrites "" (initState 1 [])).2 "" = true := by
  decide

/-- C5 (amended): normalization is total but has no invalid sentinel:
the empty string cleans to itself, and the dedup store treats the
cleaned form of every input — the empty string included — like an
ordinary domain: if unseen, `record` returns `True` (when the log write
succeeds), inserts it and `seen` reports `True` afterwards; if already
seen, `record` returns `False` and changes nothing. -/
theorem normalize_total_no_sentinel (env : Env) (d : String) (s : CrawlState) :
    clean_url "" = "" ∧
    (s.processed.contains (clean_url d) = false → env.writeOk (clean_url d) = true →
      add_domain env d s = (true, { s with processed := clean_url d :: s.processed }) ∧
      is_domain_processed (add_domain env d s).2 d = true) ∧
    (s.processed.contains (clean_url d) = true → add_domain env d s = (false, s)) :=
  ⟨rfl,
   fun h hw => ⟨add_domain_of_new env d s h hw, add_domain_contains_self env d s⟩,
   fun h => add_domain_of_contains env d s h⟩

/-- Witness for C5: recording the cleaned empty string on a fresh store. -/
theorem normalize_total_witness :
    (initState 1 []).processed.contains (clean_url "") = false ∧
    add_domain envAllWrites "" (initState 1 []) =
      (true, { initState 1 [] with processed := clean_url "" :: (initState 1 []).processed }) ∧
    is_domain_processed (add_domain envAllWrites "" (initState 1 [])).2 "" = true :=
  ⟨by decide,
   ((normalize_total_no_sentinel envAllWrites "" (initState 1 [])).2.1 (by decide) (by decide)).1,
   ((normalize_total_no_sentinel envAllWrites "" (initState 1 [])).2.1 (by decide) (by decide)).2⟩

/-- C6 counterexample: when the append to `microlinks.txt` fails
(`IOError` branch), the first `record` call returns `False` while still
marking the domain processed, so across the whole sequence zero calls —
not exactly one — return `True`. -/
theorem record_zero_trues_on_io_failure :
    recordSeq envNoWrites "a.com" 2 (initState 1 []) = [false, false] ∧
    (recordSeq envNoWrites "a.com" 2 (initState 1 [])).count true = 0 := by
  decide

/-- C6 (amended): across any sequence of `record(d)` calls at most one
returns `True`; exactly one does when the domain starts unseen, the
durable-log write succeeds, and at least one call is made. If the write
fails on the first newly-adding call, the domain is still marked
processed and no call ever returns `True`. -/
theorem record_at_most_once (env : Env) (d : String) :
    ∀ (n : Nat) (s : CrawlState),
      (recordSeq env d n s).count true ≤ 1 ∧
      (s.processed.contains (clean_url d) = false → env.writeOk (clean_url d) = true →
        0 < n → (recordSeq env d n s).count true = 1) := by
  intro n
  induction n with
  | zero =>
    intro s
    exact ⟨by simp [recordSeq], fun _ _ h => absurd h (by omega)⟩
  | succ m ih =>
    intro s
    by_cases hc : s.processed.contains (clean_url d) = true
    · rw [recordSeq_of_contains env d (m + 1) s hc]
      constructor
      · simp [List.count_replicate]
      · intro h _ _
        rw [hc] at h
        exact absurd h (by simp)
    · have hc' : s.processed.contains (clean_url d) = false := by
        cases h : s.processed.contains (clean_url d) with
        | true => exact absurd h hc
        | false => rfl
      by_cases hw : env.writeOk (clean_url d) = true
      · have hadd := add_domain_of_new env d s hc' hw
        have hafter : ({ s with processed := clean_url d :: s.processed } :
            CrawlState).processed.contains (clean_url d) = true := by
          simp [List.contains_cons]
        unfold recordSeq
        rw [hadd]
        rw [recordSeq_of_contains env d m _ hafter]
        constructor
        · simp [List.count_cons, List.count_replicate]
        · intro _ _ _
          simp [List.count_cons, List.count_replicate]
      · have hw' : env.writeOk (clean_url d) = false := by
          cases h : env.writeOk (clean_url d) with
          | true => exact absurd h hw
          | false => rfl
        have hadd := add_domain_of_new_io env d s hc' hw'
        have hafter : ({ s with processed := clean_url d :: s.processed } :
            CrawlState).processed.contains (clean_url d) = true := by
          simp [List.contains_cons]
        unfold recordSeq
        rw [hadd]
        rw [recordSeq_of_contains env d m _ hafter]
        constructor
        · simp [List.count_cons, List.count_replicate]
        · intro _ hwt _
          exact absurd hwt (by simp [hw'])

/-- Witness for C6: a fresh domain with succeeding writes is recorded
exactly once over three calls. -/
theorem record_at_most_once_witness :
    ((initState 1 []).processed.contains (clean_url "a.com") = false ∧
      envAllWrites.writeOk (clean_url "a.com") = true ∧ 0 < 3) ∧
    (recordSeq envAllWrites "a.com" 3 (initState 1 [])).count true = 1 :=
  ⟨⟨by decide, by decide, by decide⟩,
   (record_at_most_once envAllWrites "a.com" 3 (initState 1 [])).2
     (by decide) (by decide) (by decide)⟩

/-- C8: along the crawl loop of `main`, for a quota `Q > 0` the accepted
count `ms_count` is non-decreasing and never exceeds `Q`, from any state
within bound and for any number of further steps (so the bound holds at
every point of the target's run). -/
theorem acceptedCount_monotone_le_quota (env : Env) (Q : Nat) (_hQ : 0 < Q)
    (fuel : Nat) (s : CrawlState) (hs : s.msCount ≤ Q) :
    s.msCount ≤ (crawlLoop env Q fuel s).msCount ∧
    (crawlLoop env Q fuel s).msCount ≤ Q :=
  ⟨crawlLoop_msCount_mono env Q fuel s, crawlLoop_msCount_le env Q fuel s hs⟩

/-- Witness for C8: the quota bound evaluated on a concrete run. -/
theorem acceptedCount_witness :
    (0 < 2 ∧ (initState 1 []).msCount ≤ 2) ∧
    ((initState 1 []).msCount ≤ (crawlLoop envOneHit 2 25 (initState 1 [])).msCount ∧
      (crawlLoop envOneHit 2 25 (initState 1 [])).msCount ≤ 2) :=
  ⟨⟨by decide, by decide⟩,
   acceptedCount_monotone_le_quota envOneHit 2 (by decide) 25 (initState 1 []) (by decide)⟩

/-- C9: the gap-retry discipline of `main`: the retry counter never
exceeds `MAX_RETRIES = 3`; a retry step happens only while the counter is
below the cap, backtracks to `last_successful_page + 1` and increments
the counter by one; once the cap is reached a page with data is processed
in place (counter reset, `last_successful_page` advanced) and the
controller continues forward from the page it had reached; empty pages
leave the counter untouched. -/
theorem gap_retry_bound (env : Env) (Q : Nat) (s : CrawlState) :
    (s.retryCount ≤ MAX_RETRIES → (stepPage env Q s).retryCount ≤ MAX_RETRIES)
    ∧ ((env.pages s.pageNumber).isEmpty = false →
        s.lastSuccessfulPage + 1 < s.pageNumber → s.retryCount < MAX_RETRIES →
        stepPage env Q s =
          { s with pageNumber := s.lastSuccessfulPage + 1, retryCount := s.retryCount + 1 })
    ∧ ((env.pages s.pageNumber).isEmpty = false →
        s.lastSuccessfulPage + 1 < s.pageNumber → MAX_RETRIES ≤ s.retryCount →
        (stepPage env Q s).retryCount = 0 ∧
        (stepPage env Q s).lastSuccessfulPage = s.pageNumber ∧
        (Q ≤ (stepPage env Q s).msCount ∨ (stepPage env Q s).pageNumber = s.pageNumber + 1))
    ∧ ((env.pages s.pageNumber).isEmpty = true →
        (stepPage env Q s).retryCount = s.retryCount) := by
  refine ⟨?_, fun hne hgap hr => stepPage_retry_eq env Q s hne hgap hr, ?_, ?_⟩
  · intro hb
    unfold stepPage
    split
    · simpa using hb
    · split
      · next hcond =>
          show s.retryCount + 1 ≤ MAX_RETRIES
          have h2 := hcond.2
          omega
      · simp [processWebsites_retryCount]
  · intro hne hgap hr
    unfold stepPage
    split
    · next hemp =>
        rw [hne] at hemp
        exact Bool.noConfusion hemp
    · split
      · next hcond => exact absurd hcond.2 (by omega)
      · refine ⟨by simp [processWebsites_retryCount],
          by simp [processWebsites_lastSuccessfulPage], ?_⟩
        unfold advanceUnlessQuota
        split
        · next hle => exact Or.inl hle
        · exact Or.inr (by simp [processWebsites_pageNumber])
  · intro he
    unfold stepPage
    split
    · simp
    · next hne2 => exact absurd he hne2

/-- Witness for C9: a concrete gap-retry step from page 5 back to page 2. -/
theorem gap_retry_bound_witness :
    ((envGap.pages sGap.pageNumber).isEmpty = false ∧
      sGap.lastSuccessfulPage + 1 < sGap.pageNumber ∧ sGap.retryCount < MAX_RETRIES) ∧
    stepPage envGap 1 sGap = { sGap with pageNumber := 2, retryCount := 1 } :=
  ⟨⟨by decide, by decide, by decide⟩,
   (gap_retry_bound envGap 1 sGap).2.1 (by decide) (by decide) (by decide)⟩

/-- C10: classification never lets a resolver failure escape: whenever
the DNS outcome for the cleaned website is any of the failure modes (no
answer, nonexistent domain, timeout, any other error — i.e. not a record
answer), `is_microsoft_affiliated` returns the result `false` instead of
propagating an exception; as a Lean function the model is total on all
input strings and outcomes. -/
theorem classification_total_on_dns_failure (resolve : String → DnsOutcome) (w : String)
    (h : ∀ rs : List String, resolve (clean_url w) ≠ .records rs) :
    is_microsoft_affiliated resolve w = false := by
  unfold is_microsoft_affiliated
  cases ho : resolve (clean_url w) with
  | records rs => exact absurd ho (h rs)
  | noAnswer => rfl
  | nxdomain => rfl
  | timeout => rfl
  | otherError m => rfl

/-- Witness for C10: a resolver that always times out yields `false` for
a concrete (even odd-looking) input. -/
theorem classification_total_witness :
    (∀ rs : List String, resolveTimeout (clean_url "not a domain!!") ≠ .records rs) ∧
    is_microsoft_affiliated resolveTimeout "not a domain!!" = false :=
  ⟨fun rs => by simp [resolveTimeout],
   classification_total_on_dns_failure resolveTimeout "not a domain!!"
     (fun rs => by simp [resolveTimeout])⟩

/-- C7 counterexample: `clean_url` strips only one `www.` prefix per
application, so on `www.www.example.com` a second application changes
the result again — normalization is not idempotent. -/
theorem clean_url_not_idempotent :
    clean_url (clean_url "www.www.example.com") ≠ clean_url "www.www.example.com" := by
  decide

/-- C7 (amended): `clean_url` is idempotent exactly on the inputs whose
cleaned form is stable — i.e. whenever the first application's output
does not itself begin with `http://`, `https://` or `www.` (each
application strips at most one such prefix, so nested prefixes need one
application each). -/
theorem clean_url_idempotent_on_stable (d : String)
    (h1 : "https://".data.isPrefixOf (clean_url d).data = false)
    (h2 : "http://".data.isPrefixOf (clean_url d).data = false)
    (h3 : "www.".data.isPrefixOf (clean_url d).data = false) :
    clean_url (clean_url d) = clean_url d :=
  congrArg String.mk (cleanUrlL_idem d.data h1 h2 h3)

/-- Witness for C7: a URL with a single scheme and `www.` prefix cleans
to a stable form. -/
theorem clean_url_idempotent_witness :
    ("https://".data.isPrefixOf (clean_url "HTTPS://www.Example.com/").data = false ∧
     "http://".data.isPrefixOf (clean_url "HTTPS://www.Example.com/").data = false ∧
     "www.".data.isPrefixOf (clean_url "HTTPS://www.Example.com/").data = false) ∧
    clean_url (clean_url "HTTPS://www.Example.com/") = clean_url "HTTPS://www.Example.com/" :=
  ⟨⟨by decide, by decide, by decide⟩,
   clean_url_idempotent_on_stable "HTTPS://www.Example.com/" (by decide) (by decide) (by decide)⟩

end Scraper
